import Mathlib

set_option maxHeartbeats 1000000

/-!
Verification of the two CI scripts of this repository:
`.github/scripts/jira_component_hook.py` (batch Component Ensurer) and
`.github/scripts/add_jira_component.py` (single-issue Component Ensurer).

The Python scripts are shallowly embedded: each script's control flow becomes
a Lean function over an explicit model of the Jira world; HTTP calls become
calls into a client record (so that failures can be injected), and raised
Python exceptions become `Except` errors.  Character and string handling is
modelled at the ASCII level, which covers every literal the scripts use.
-/

/-- A Jira component as the scripts see it: an id and a name. -/
structure Component where
  id : String
  name : String
  deriving DecidableEq, Repr

/-- Python exceptions that can surface in the scripts. -/
inductive JErr
  | httpError (status : Nat)
  | nameError (missing : String)
  | typeError
  | otherError
  deriving DecidableEq, Repr

/-- Response of the `POST /component` call made by `jira_create_component`
(`jira_component_hook.py` line 118): either a 2xx with the created component,
or a 409 conflict; every other non-2xx status is raised by
`raise_for_status` and is therefore a `JErr` on the client side. -/
inductive PostResp
  | created (c : Component)
  | conflict409
  deriving DecidableEq, Repr

/-- One `update.components` operation of the Jira
`PUT /rest/api/3/issue/{key}` interface (spec section 6): the API accepts
`add`, `remove` and `set` verbs against the components field. -/
inductive ComponentUpdateOp
  | add (id : String)
  | remove (id : String)
  | set (ids : List String)
  deriving DecidableEq, Repr

/-- The tracker client of the batch script, one field per HTTP call site.
Each call either raises (`Except.error`) or returns.  The attach call takes
the request body built by the script and returns the HTTP status code of
the non-raising responses. -/
structure BatchClient where
  getIssueProject : String → Except JErr (String × String)
  listComponents : String → Except JErr (List Component)
  postComponent : String → String → Except JErr PostResp
  putAddComponent : String → List ComponentUpdateOp → Except JErr Nat

/-- The function `jira_list_components` builds a Python dict keyed by component name
(`out[comp["name"]] = comp`, lines 107-109): a later entry with the same
name overwrites an earlier one, and `comps.get(name)` reads that dict. -/
def componentsByName (comps : List Component) (n : String) : Option Component :=
  comps.foldl (fun acc c => if c.name = n then some c else acc) none

/-- Names bound at module level of `jira_component_hook.py` (lines 10-21).
`JIRA_COMPONENT_LEAD` is read at line 116 but never bound anywhere in the
module, so evaluating it raises `NameError`. -/
def hookModuleGlobals : List String :=
  ["JIRA_BASE_URL", "JIRA_EMAIL", "JIRA_API_TOKEN", "REPO_NAME",
   "GITHUB_EVENT_NAME", "GITHUB_TOKEN", "PR_NUMBER", "OWNER", "REPO",
   "ISSUE_KEY_RE"]

/-- The function `jira_create_component` (`jira_component_hook.py` lines 112-124).
Line 116 evaluates the global `JIRA_COMPONENT_LEAD` before the POST is
issued; if the name is unbound the interpreter raises `NameError` there.
On a 409 response the project components are re-listed and the dict lookup
`comps.get(name)` (an `Option`) is returned. -/
def jira_create_component (cl : BatchClient) (project_key name : String) :
    Except JErr (Option Component) :=
  if "JIRA_COMPONENT_LEAD" ∈ hookModuleGlobals then
    match cl.postComponent project_key name with
    | .error e => .error e
    | .ok .conflict409 =>
      match cl.listComponents project_key with
      | .error e => .error e
      | .ok comps => .ok (componentsByName comps name)
    | .ok (.created c) => .ok (some c)
  else
    .error (.nameError "JIRA_COMPONENT_LEAD")

/-- The request body built by `jira_add_component_to_issue`
(`jira_component_hook.py` lines 129-135):
`{"update": {"components": [{"add": {"id": str(component_id)}}]}}`. -/
def addComponentBody (component_id : String) : List ComponentUpdateOp :=
  [ComponentUpdateOp.add component_id]

/-- Modelled from the spec: server-side semantics of one `update.components`
operation of `PUT /issue/{key}` (spec section 6) — the Jira server itself is
not part of this repository.  An `add` inserts the id if absent, a `remove`
deletes it, a `set` replaces the whole list. -/
def applyComponentOp (comps : List String) : ComponentUpdateOp → List String
  | .add i => if i ∈ comps then comps else comps ++ [i]
  | .remove i => comps.erase i
  | .set ids => ids

/-- Modelled from the spec: server-side application of a list of
`update.components` operations, in order. -/
def applyComponentOps (comps : List String) (ops : List ComponentUpdateOp) :
    List String :=
  ops.foldl applyComponentOp comps

/-- The function `jira_add_component_to_issue` (`jira_component_hook.py` lines 126-139):
PUT the add-only body; 200 and 204 succeed, any other status goes through
`raise_for_status`, which raises exactly for statuses ≥ 400. -/
def jira_add_component_to_issue (cl : BatchClient) (issue_key component_id : String) :
    Except JErr Unit :=
  match cl.putAddComponent issue_key (addComponentBody component_id) with
  | .error e => .error e
  | .ok status =>
    if status = 200 ∨ status = 204 then .ok ()
    else if 400 ≤ status then .error (.httpError status) else .ok ()

/-- Per-issue log line of the batch script's loop. -/
inductive HookLog
  | noKeys
  | okKey (key : String)
  | warnKey (key : String)
  deriving DecidableEq, Repr

/-- Body of one iteration of the loop in `main` of `jira_component_hook.py`
(lines 150-157): fetch the issue's project, list its components, reuse the
repo-name component if the dict contains it, otherwise create it, then
attach it.  `comp["id"]` on the `None` that the 409 path of
`jira_create_component` can return raises `TypeError`. -/
def processIssueKey (cl : BatchClient) (repoName key : String) : Except JErr Unit :=
  match cl.getIssueProject key with
  | .error e => .error e
  | .ok (project_key, _) =>
    match cl.listComponents project_key with
    | .error e => .error e
    | .ok comps =>
      match (match componentsByName comps repoName with
             | some c => Except.ok (some c)
             | none => jira_create_component cl project_key repoName) with
      | .error e => .error e
      | .ok none => .error .typeError
      | .ok (some comp) => jira_add_component_to_issue cl key comp.id

/-- The function `main` of `jira_component_hook.py` (lines 141-163): if no keys were
harvested, print and return; otherwise process each key inside a
`try/except` that catches `requests.HTTPError` and `Exception`, logging
`[OK]` or `[WARN]` and continuing with the next key. -/
def hookMain (cl : BatchClient) (repoName : String) (issue_keys : List String) :
    List HookLog :=
  if issue_keys = [] then [HookLog.noKeys]
  else
    issue_keys.map fun key =>
      match processIssueKey cl repoName key with
      | .ok _ => HookLog.okKey key
      | .error _ => HookLog.warnKey key

/-- Since `main` contains no `sys.exit` and every exception raised while handling
a key is caught inside the loop (lines 159-163), so `main` always returns
normally and the interpreter exits with status 0. -/
def hookExitCode (cl : BatchClient) (repoName : String) (issue_keys : List String) :
    Nat :=
  let _ := hookMain cl repoName issue_keys
  0

/-- A client for which every underlying HTTP call would succeed: the issue
`AB-1` lives in project `AB`, whose component list does not contain the
repository-name component, and the `POST /component` call would answer 201
with a fresh component. -/
def c1Client : BatchClient where
  getIssueProject := fun k =>
    if k = "AB-1" then .ok ("AB", "10000") else .error (.httpError 404)
  listComponents := fun pk =>
    if pk = "AB" then .ok [⟨"9", "other-comp"⟩] else .error (.httpError 404)
  postComponent := fun pk n =>
    if pk = "AB" then .ok (.created ⟨"10", n⟩) else .error (.httpError 404)
  putAddComponent := fun _ _ => .ok 204

/-- A client that raises on the second of three issue keys and succeeds on
the other two: used to exercise batch failure isolation. -/
def c3Client : BatchClient where
  getIssueProject := fun k =>
    if k = "B-2" then .error (.httpError 500) else .ok ("P", "1")
  listComponents := fun pk =>
    if pk = "P" then .ok [⟨"7", "webhooks-test-repo"⟩] else .error (.httpError 404)
  postComponent := fun _ _ => .error (.httpError 500)
  putAddComponent := fun _ _ => .ok 204

/-! ## Single-issue Component Ensurer (`add_jira_component.py`) -/

/-! ## Issue-Key Harvester (`jira_component_hook.py`, `ISSUE_KEY_RE` and
`extract_issue_keys`)

`ISSUE_KEY_RE = re.compile(r"\x5cb([A-Z][A-Z0-9]+-\x5cd+)\x5cb")` and
`ISSUE_KEY_RE.findall(t)` scan `t` left to right, attempting a match at each
position and resuming after the end of each match.  For this particular
pattern the regex engine's behaviour is exactly maximal munch: `[A-Z0-9]+`
must be followed by `-`, which is outside the class, and `\x5cd+` must be
followed by a word boundary, so backtracking can never produce a match that
greedy scanning misses.  The scripts only ever feed ASCII text, so word
characters are modelled as ASCII `[A-Za-z0-9_]`. -/

/-- A word character for the purposes of the regex `\x5cb` boundary
(ASCII fragment of Python's `\x5cw`). -/
def isWordChar (c : Char) : Bool := c.isAlphanum || c = '_'

/-- Membership in the character class `[A-Z0-9]`. -/
def isUpperDigit (c : Char) : Bool := c.isUpper || c.isDigit

/-- Attempt to match `[A-Z][A-Z0-9]+-\x5cd+` followed by `\x5cb` at the head
of the input (the start boundary is the caller's responsibility).  Returns
the matched characters and the rest of the input. -/
def matchKey : List Char → Option (List Char × List Char)
  | [] => none
  | c :: rest =>
    if c.isUpper then
      let body := rest.takeWhile isUpperDigit
      let rest2 := rest.dropWhile isUpperDigit
      if body = [] then none
      else
        match rest2 with
        | '-' :: rest3 =>
          let digits := rest3.takeWhile Char.isDigit
          let rest4 := rest3.dropWhile Char.isDigit
          if digits = [] then none
          else
            match rest4 with
            | [] => some (c :: body ++ '-' :: digits, [])
            | d :: _ =>
              if isWordChar d then none
              else some (c :: body ++ '-' :: digits, rest4)
        | _ => none
    else none

/-- The scanner implementing `re.findall` for `ISSUE_KEY_RE`, fuelled so that the recursion is
structural: at each position, if the previous character was not a word
character (i.e. `\x5cb` holds) try `matchKey`; on success emit the match and
resume after it, otherwise advance one character.  `fuel` bounds the number
of steps; `scanKeys` supplies `fuel = length`, which is always enough. -/
def scanKeysF : Nat → List Char → Bool → List (List Char)
  | _, [], _ => []
  | 0, _ :: _, _ => []
  | fuel + 1, c :: rest, prevWord =>
    if prevWord then scanKeysF fuel rest (isWordChar c)
    else
      match matchKey (c :: rest) with
      | some (key, rest') => key :: scanKeysF fuel rest' true
      | none => scanKeysF fuel rest (isWordChar c)

/-- All matches of `ISSUE_KEY_RE` in a character list, in order. -/
def scanKeys (l : List Char) (prevWord : Bool) : List (List Char) :=
  scanKeysF l.length l prevWord

/-- The call `ISSUE_KEY_RE.findall(t)` (`jira_component_hook.py` line 81). -/
def findIssueKeys (t : String) : List String :=
  (scanKeys t.data false).map fun cs => String.mk cs

/-- The key-extraction tail of `extract_issue_keys`
(`jira_component_hook.py` lines 76-84), parametrised by the collected
texts: skip falsy (empty) texts, apply `findall` to the rest, accumulate
into a set, and return the sorted set. -/
def extract_issue_keys (texts : List String) : List String :=
  ((texts.flatMap fun t => if t = "" then [] else findIssueKeys t).dedup).insertionSort
    (· ≤ ·)

/-- Does the character after the match position satisfy `\x5cb`?  True at
end of input or before a non-word character. -/
def headBoundary : List Char → Bool
  | [] => true
  | c :: _ => !isWordChar c

/-- Is the character just before the current position a word character?
`prevWord` is the answer for the empty prefix (false at start of input). -/
def lastIsWord (prevWord : Bool) : List Char → Bool
  | [] => prevWord
  | c :: rest => lastIsWord (isWordChar c) rest

/-- A character list of the exact shape `[A-Z][A-Z0-9]+-\x5cd+`. -/
def IsIssueKeyShape (k : List Char) : Prop :=
  ∃ u b d, k = u :: b ++ '-' :: d ∧ u.isUpper = true ∧ b ≠ [] ∧
    (∀ c ∈ b, isUpperDigit c = true) ∧ d ≠ [] ∧ ∀ c ∈ d, c.isDigit = true

/-- The list `k` occurs in `t` as a full regex match: `t = pre ++ k ++ post`, the
character before `k` is not a word character (`prevWord` answering for an
empty `pre`), the character after `k` is not a word character, and `k` has
the shape `[A-Z][A-Z0-9]+-\x5cd+`. -/
def OccursKeyFrom (prevWord : Bool) (t k : List Char) : Prop :=
  ∃ pre post, t = pre ++ k ++ post ∧ lastIsWord prevWord pre = false ∧
    headBoundary post = true ∧ IsIssueKeyShape k

/-- The list `k` occurs in the text `t` as a match of `ISSUE_KEY_RE`. -/
def OccursAsKey (k t : List Char) : Prop := OccursKeyFrom false t k

/-- Python truthiness of the result of `os.environ.get`: `None` and the
empty string are falsy, every other string is truthy. -/
def pyTruthy : Option String → Bool
  | none => false
  | some s => !(s = "")

/-- The environment variables read at the top of `main`
(`add_jira_component.py` lines 14-19). -/
structure SIEnv where
  jira_base_url : Option String
  jira_user_email : Option String
  jira_api_token : Option String
  issue_key : Option String
  component_name : Option String
  jira_project_filter : Option String
  deriving DecidableEq, Repr

/-- Python `str.split(sep)` for a one-character separator: empty parts are
preserved and the result is never empty (`"".split(',') == [""]`). -/
def pySplit (sep : Char) : List Char → List (List Char)
  | [] => [[]]
  | c :: rest =>
    if c = sep then [] :: pySplit sep rest
    else
      match pySplit sep rest with
      | [] => [[c]]
      | h :: t => (c :: h) :: t

/-- Python `str.strip()` with no argument, at the ASCII level: remove
leading and trailing whitespace. -/
def pyStrip (l : List Char) : List Char :=
  (((l.dropWhile Char.isWhitespace).reverse).dropWhile Char.isWhitespace).reverse

/-- Python `str.upper()` at the ASCII level. -/
def pyUpper (l : List Char) : List Char := l.map Char.toUpper

/-- Allow-list parsing (`add_jira_component.py` line 45):
`[p.strip().upper() for p in jira_project_filter.split(',') if p.strip()]`. -/
def parse_allowed_projects (s : String) : List String :=
  (pySplit ',' s.data).filterMap fun p =>
    if pyStrip p = [] then none else some (String.mk (pyUpper (pyStrip p)))

/-- Modelled from the spec: the spec's own description of allow-list parsing
("splits on commas, trims whitespace, upper-cases each entry, and drops
blank entries"), written as a split-trim-filter-map pipeline, to be compared
with `parse_allowed_projects` taken from the source. -/
def parse_allowed_projects_spec (s : String) : List String :=
  ((((pySplit ',' s.data).map pyStrip).filter fun t => t ≠ []).map fun t =>
    String.mk (pyUpper t))

/-- State of the Jira world as the single-issue script can observe it: the
issue's project key, the components of that project, and the component
names currently attached to the issue.  `nextId` feeds ids for components
the server creates. -/
structure SIWorld where
  projectKey : String
  projectComponents : List Component
  issueComponents : List String
  nextId : Nat
  deriving DecidableEq, Repr

/-- Injectable failure points of the single-issue run: each names one Jira
call of the `try` block that raises when reached.  `createConflict` is the
`create_component` call answered with a duplicate-name conflict (the jira
client library raises `JIRAError` for it just as for any other non-2xx). -/
inductive SIFail
  | connect
  | fetchIssue
  | listComponents
  | createComponent
  | createConflict
  | listComponentsAgain
  | updateIssue
  deriving DecidableEq, Repr

/-- Observable outcome of one run of the single-issue script: the process
exit code, the lines appended to the CI output file (`GITHUB_OUTPUT`), the
number of `create_component` calls issued, the payloads (component-name
lists) of the `issue.update` calls issued, and the resulting Jira world. -/
structure SIResult where
  exitCode : Nat
  output : List String
  createCalls : Nat
  updateCalls : List (List String)
  world : SIWorld
  deriving DecidableEq, Repr

/-- Lines 136-148 of `add_jira_component.py`: build
`all_components = existing_components + [component_name]`, replace the
issue's components field with it, and write the success marker.  When the
update call raises, the generic handler exits 1 with nothing written. -/
def si_update (component_name : String) (w : SIWorld)
    (existing_components : List String) (createCalls : Nat)
    (fail : Option SIFail) : SIResult :=
  let all_components := existing_components ++ [component_name]
  if fail = some SIFail.updateIssue then
    ⟨1, [], createCalls, [all_components], w⟩
  else
    ⟨0, ["status=processed"], createCalls, [all_components],
      { w with issueComponents := all_components }⟩

/-- Lines 113-148 of `add_jira_component.py`: read the issue's components
from the fetch snapshot; if the target name is already attached, skip the
update and write the success marker; otherwise look the component up in the
(possibly stale) `project_components` list, re-fetch the list if it is not
there — the value is never used afterwards, but the re-fetch can raise —
then perform the full-replace update. -/
def si_attach (component_name : String) (project_components : List Component)
    (w : SIWorld) (existing_components : List String) (createCalls : Nat)
    (fail : Option SIFail) : SIResult :=
  if component_name ∈ existing_components then
    ⟨0, ["status=processed"], createCalls, [], w⟩
  else
    match project_components.find? fun c => c.name = component_name with
    | some _ => si_update component_name w existing_components createCalls fail
    | none =>
      if fail = some SIFail.listComponentsAgain then
        ⟨1, [], createCalls, [], w⟩
      else si_update component_name w existing_components createCalls fail

/-- The `try` block of `main` (`add_jira_component.py` lines 66-152):
connect, fetch the issue, gate on the allow-list (`sys.exit(0)` there is a
`SystemExit`, which `except Exception` does not catch), list the project's
components, create the target component when absent, then attach.  Every
raising call lands in the generic handler: exit 1, nothing written. -/
def si_try (component_name : String) (allowed_projects : List String)
    (w : SIWorld) (fail : Option SIFail) : SIResult :=
  if fail = some SIFail.connect then ⟨1, [], 0, [], w⟩
  else if fail = some SIFail.fetchIssue then ⟨1, [], 0, [], w⟩
  else if String.mk (pyUpper w.projectKey.data) ∉ allowed_projects then
    ⟨0, ["status=skipped", "skip_reason=project_not_allowed"], 0, [], w⟩
  else if fail = some SIFail.listComponents then ⟨1, [], 0, [], w⟩
  else
    let project_components := w.projectComponents
    let component_names := project_components.map Component.name
    if component_name ∉ component_names then
      if fail = some SIFail.createComponent ∨ fail = some SIFail.createConflict then
        ⟨1, [], 1, [], w⟩
      else
        let newComp : Component := ⟨toString w.nextId, component_name⟩
        let w1 : SIWorld :=
          { w with projectComponents := w.projectComponents ++ [newComp],
                   nextId := w.nextId + 1 }
        si_attach component_name project_components w1 w.issueComponents 1 fail
    else
      si_attach component_name project_components w w.issueComponents 0 fail

/-- The function `main` of `add_jira_component.py` (lines 12-152): validate the required
environment variables (exit 1, nothing written, when one is missing or
empty), handle the absent/blank and unparsable allow-list skips, then run
the `try` block. -/
def si_main (env : SIEnv) (w : SIWorld) (fail : Option SIFail) : SIResult :=
  if !(pyTruthy env.jira_base_url && pyTruthy env.jira_user_email &&
       pyTruthy env.jira_api_token && pyTruthy env.issue_key &&
       pyTruthy env.component_name) then
    ⟨1, [], 0, [], w⟩
  else
    match env.jira_project_filter with
    | none => ⟨0, ["status=skipped", "skip_reason=missing_project_filter"], 0, [], w⟩
    | some filt =>
      if pyStrip filt.data = [] then
        ⟨0, ["status=skipped", "skip_reason=missing_project_filter"], 0, [], w⟩
      else
        let allowed_projects := parse_allowed_projects filt
        if allowed_projects = [] then
          ⟨0, ["status=skipped", "skip_reason=invalid_project_filter"], 0, [], w⟩
        else
          si_try (env.component_name.getD "") allowed_projects w fail

/-! ## Character-class facts -/

theorem isWordChar_of_isUpper {c : Char} (h : c.isUpper = true) :
    isWordChar c = true := by
  simp [isWordChar, Char.isAlphanum, Char.isAlpha, h]

theorem isWordChar_of_isDigit {c : Char} (h : c.isDigit = true) :
    isWordChar c = true := by
  simp [isWordChar, Char.isAlphanum, h]

theorem isWordChar_of_isUpperDigit {c : Char} (h : isUpperDigit c = true) :
    isWordChar c = true := by
  simp only [isUpperDigit, Bool.or_eq_true] at h
  rcases h with h | h
  · exact isWordChar_of_isUpper h
  · exact isWordChar_of_isDigit h

theorem isDigit_false_of_isUpper {c : Char} (h : c.isUpper = true) :
    c.isDigit = false := by
  have e65 : (UInt32.toBitVec 65).toNat = 65 := rfl
  have e90 : (UInt32.toBitVec 90).toNat = 90 := rfl
  have e48 : (UInt32.toBitVec 48).toNat = 48 := rfl
  have e57 : (UInt32.toBitVec 57).toNat = 57 := rfl
  simp only [Char.isUpper, Char.isDigit, Bool.and_eq_true, decide_eq_true_eq,
    UInt32.le_def, BitVec.le_def, e65, e90, e48, e57] at *
  obtain ⟨h1, h2⟩ := h
  simp only [Bool.and_eq_false_iff, decide_eq_false_iff_not, UInt32.le_def,
    BitVec.le_def, e65, e90, e48, e57]
  omega

theorem isDigit_false_of_not_word {c : Char} (h : isWordChar c = false) :
    c.isDigit = false := by
  cases hd : c.isDigit with
  | false => rfl
  | true => rw [isWordChar_of_isDigit hd] at h; exact absurd h (by simp)

/-! ## takeWhile / dropWhile decomposition facts -/

theorem takeWhile_append_cons {p : Char → Bool} {b : List Char} {x : Char}
    {r : List Char} (hb : ∀ c ∈ b, p c = true) (hx : p x = false) :
    (b ++ x :: r).takeWhile p = b := by
  induction b with
  | nil => simp [List.takeWhile_cons, hx]
  | cons a b ih =>
    have ha := hb a (by simp)
    simp only [List.cons_append, List.takeWhile_cons, ha, if_true]
    rw [ih fun c hc => hb c (by simp [hc])]

theorem dropWhile_append_cons {p : Char → Bool} {b : List Char} {x : Char}
    {r : List Char} (hb : ∀ c ∈ b, p c = true) (hx : p x = false) :
    (b ++ x :: r).dropWhile p = x :: r := by
  induction b with
  | nil => simp [List.dropWhile_cons, hx]
  | cons a b ih =>
    have ha := hb a (by simp)
    simp only [List.cons_append, List.dropWhile_cons, ha, if_true]
    exact ih fun c hc => hb c (by simp [hc])

theorem takeWhile_all {p : Char → Bool} {b : List Char}
    (hb : ∀ c ∈ b, p c = true) : b.takeWhile p = b := by
  induction b with
  | nil => rfl
  | cons a b ih =>
    have ha := hb a (by simp)
    simp only [List.takeWhile_cons, ha, if_true]
    rw [ih fun c hc => hb c (by simp [hc])]

theorem dropWhile_all {p : Char → Bool} {b : List Char}
    (hb : ∀ c ∈ b, p c = true) : b.dropWhile p = [] := by
  induction b with
  | nil => rfl
  | cons a b ih =>
    have ha := hb a (by simp)
    simp only [List.dropWhile_cons, ha, if_true]
    exact ih fun c hc => hb c (by simp [hc])

/-! ## `lastIsWord` and shape facts -/

theorem lastIsWord_append (pw : Bool) (xs ys : List Char) :
    lastIsWord pw (xs ++ ys) = lastIsWord (lastIsWord pw xs) ys := by
  induction xs generalizing pw with
  | nil => rfl
  | cons c xs ih => simp only [List.cons_append, lastIsWord]; exact ih _

theorem lastIsWord_all_word {l : List Char} (pw : Bool)
    (hl : ∀ c ∈ l, isWordChar c = true) (hne : l ≠ []) :
    lastIsWord pw l = true := by
  induction l generalizing pw with
  | nil => exact absurd rfl hne
  | cons c l ih =>
    cases l with
    | nil => simpa [lastIsWord] using hl c (by simp)
    | cons c' l' =>
      simp only [lastIsWord]
      exact ih (isWordChar c) (fun x hx => hl x (List.mem_cons_of_mem _ hx)) (by simp)

theorem shape_ne_nil {k : List Char} (hk : IsIssueKeyShape k) : k ≠ [] := by
  obtain ⟨u, b, d, rfl, -⟩ := hk
  simp

theorem shape_head_upper {k : List Char} (hk : IsIssueKeyShape k) :
    ∃ u k', k = u :: k' ∧ u.isUpper = true := by
  obtain ⟨u, b, d, rfl, hu, -⟩ := hk
  exact ⟨u, _, rfl, hu⟩

theorem shape_lastIsWord {k : List Char} (hk : IsIssueKeyShape k) (pw : Bool) :
    lastIsWord pw k = true := by
  obtain ⟨u, b, d, rfl, hu, hb0, hb, hd0, hd⟩ := hk
  have : u :: b ++ '-' :: d = (u :: b ++ ['-']) ++ d := by simp
  rw [this, lastIsWord_append]
  exact lastIsWord_all_word _ (fun c hc => isWordChar_of_isDigit (hd c hc)) hd0

/-! ## `matchKey` facts -/

theorem matchKey_eq_some {l k r : List Char} (h : matchKey l = some (k, r)) :
    l = k ++ r ∧ IsIssueKeyShape k ∧ headBoundary r = true := by
  cases l with
  | nil => simp [matchKey] at h
  | cons c rest =>
    simp only [matchKey] at h
    split at h
    case isFalse => exact absurd h (by simp)
    case isTrue hu =>
      split at h
      case isTrue => exact absurd h (by simp)
      case isFalse hb0 =>
        split at h
        next rest2 rest3 heq2 =>
          split at h
          case isTrue => exact absurd h (by simp)
          case isFalse hd0 =>
            have hrest : rest = rest.takeWhile isUpperDigit ++ '-' :: rest3 := by
              conv_lhs => rw [← List.takeWhile_append_dropWhile (p := isUpperDigit) (l := rest)]
              rw [heq2]
            have hshape : IsIssueKeyShape
                (c :: rest.takeWhile isUpperDigit ++ '-' :: rest3.takeWhile Char.isDigit) :=
              ⟨c, _, _, rfl, hu, hb0, fun x hx => List.mem_takeWhile_imp hx,
                hd0, fun x hx => List.mem_takeWhile_imp hx⟩
            split at h
            next heq4 =>
              simp only [Option.some.injEq, Prod.mk.injEq] at h
              obtain ⟨hk, hr⟩ := h
              subst hk; subst hr
              refine ⟨?_, hshape, rfl⟩
              have hrest3 : rest3 = rest3.takeWhile Char.isDigit := by
                conv_lhs => rw [← List.takeWhile_append_dropWhile (p := Char.isDigit) (l := rest3)]
                rw [heq4, List.append_nil]
              rw [List.append_nil]
              conv_lhs => rw [hrest, hrest3]
              simp [List.cons_append]
            next d tail heq4 =>
              split at h
              case isTrue => exact absurd h (by simp)
              case isFalse hw =>
                simp only [Option.some.injEq, Prod.mk.injEq] at h
                obtain ⟨hk, hr⟩ := h
                subst hk; subst hr
                refine ⟨?_, hshape, ?_⟩
                · have hrest3 : rest3 =
                      rest3.takeWhile Char.isDigit ++ rest3.dropWhile Char.isDigit := by
                    rw [List.takeWhile_append_dropWhile]
                  conv_lhs => rw [hrest, hrest3]
                  simp [List.cons_append]
                · rw [Bool.not_eq_true] at hw
                  simp [heq4, headBoundary, hw]
        next => exact absurd h (by simp)

theorem matchKey_complete {k r : List Char} (hk : IsIssueKeyShape k)
    (hr : headBoundary r = true) : matchKey (k ++ r) = some (k, r) := by
  obtain ⟨u, b, d, rfl, hu, hb0, hb, hd0, hd⟩ := hk
  have hrw : (u :: b ++ '-' :: d) ++ r = u :: (b ++ '-' :: (d ++ r)) := by simp
  rw [hrw]
  have ht1 : (b ++ '-' :: (d ++ r)).takeWhile isUpperDigit = b :=
    takeWhile_append_cons hb (by decide)
  have ht2 : (b ++ '-' :: (d ++ r)).dropWhile isUpperDigit = '-' :: (d ++ r) :=
    dropWhile_append_cons hb (by decide)
  simp only [matchKey, ht1, ht2, if_pos hu, if_neg hb0]
  cases r with
  | nil =>
    have ht3 : (d ++ ([] : List Char)).takeWhile Char.isDigit = d := by
      rw [List.append_nil]; exact takeWhile_all hd
    have ht4 : (d ++ ([] : List Char)).dropWhile Char.isDigit = [] := by
      rw [List.append_nil]; exact dropWhile_all hd
    simp only [ht3, ht4, if_neg hd0]
  | cons x r' =>
    have hx : isWordChar x = false := by
      simp only [headBoundary, Bool.not_eq_true'] at hr
      exact hr
    have hxd : x.isDigit = false := isDigit_false_of_not_word hx
    have ht3 : (d ++ x :: r').takeWhile Char.isDigit = d :=
      takeWhile_append_cons hd hxd
    have ht4 : (d ++ x :: r').dropWhile Char.isDigit = x :: r' :=
      dropWhile_append_cons hd hxd
    simp only [ht3, ht4, if_neg hd0, hx]
    simp

/-! ## Occurrence facts -/

theorem occursKeyFrom_nil {pw : Bool} {k : List Char} : ¬ OccursKeyFrom pw [] k := by
  rintro ⟨pre, post, ht, -, -, hk⟩
  have hne := shape_ne_nil hk
  cases pre with
  | nil => cases k with
    | nil => exact hne rfl
    | cons a l => simp at ht
  | cons a l => simp at ht

theorem occurs_tail {pw : Bool} {c : Char} {rest k : List Char}
    (h : OccursKeyFrom (isWordChar c) rest k) : OccursKeyFrom pw (c :: rest) k := by
  obtain ⟨pre, post, rfl, hl, hb, hk⟩ := h
  exact ⟨c :: pre, post, by simp, by simpa [lastIsWord] using hl, hb, hk⟩

theorem occurs_head {pw : Bool} {c : Char} {rest k : List Char}
    (h : OccursKeyFrom pw (c :: rest) k) :
    (pw = false ∧ ∃ post, c :: rest = k ++ post ∧ headBoundary post = true ∧
      IsIssueKeyShape k) ∨ OccursKeyFrom (isWordChar c) rest k := by
  obtain ⟨pre, post, ht, hl, hb, hk⟩ := h
  cases pre with
  | nil => exact Or.inl ⟨hl, post, by simpa using ht, hb, hk⟩
  | cons p pre' =>
    simp only [List.cons_append, List.cons.injEq] at ht
    obtain ⟨rfl, ht⟩ := ht
    exact Or.inr ⟨pre', post, ht, by simpa [lastIsWord] using hl, hb, hk⟩

theorem occurs_after_key {pw : Bool} {key rest' k : List Char}
    (hkey : IsIssueKeyShape key) (h : OccursKeyFrom true rest' k) :
    OccursKeyFrom pw (key ++ rest') k := by
  obtain ⟨pre, post, rfl, hl, hb, hk⟩ := h
  refine ⟨key ++ pre, post, by simp, ?_, hb, hk⟩
  rw [lastIsWord_append, shape_lastIsWord hkey pw]
  exact hl

theorem key_take_of_le {x y pre tail : List Char} (heq : x ++ y = pre ++ tail)
    (hlen : pre.length ≤ x.length) : pre = x.take pre.length := by
  have h1 : (x ++ y).take pre.length = x.take pre.length := by
    rw [List.take_append_eq_append_take]
    have h0 : pre.length - x.length = 0 := Nat.sub_eq_zero_of_le hlen
    simp [h0]
  have h2 : (pre ++ tail).take pre.length = pre := by
    rw [List.take_append_eq_append_take]
    simp
  rw [heq] at h1
  rw [h2] at h1
  exact h1

theorem occurs_split {key rest' pre k post : List Char}
    (hkey : IsIssueKeyShape key) (heq : key ++ rest' = pre ++ (k ++ post))
    (hpre : pre ≠ []) (hlast : lastIsWord false pre = false)
    (hk : IsIssueKeyShape k) :
    ∃ pre', pre = key ++ pre' ∧ pre' ≠ [] := by
  by_cases hlen : key.length ≤ pre.length
  · have htake : key = pre.take key.length :=
      key_take_of_le (x := pre) (y := k ++ post) heq.symm hlen
    refine ⟨pre.drop key.length, ?_, ?_⟩
    · conv_lhs => rw [← List.take_append_drop key.length pre, ← htake]
    · intro hnil
      have hpk : pre = key := by
        have h := List.take_append_drop key.length pre
        rw [hnil, List.append_nil] at h
        rw [← h, ← htake]
      rw [hpk, shape_lastIsWord hkey false] at hlast
      exact absurd hlast (by simp)
  · exfalso
    push_neg at hlen
    obtain ⟨u, b, d, rfl, hu, hb0, hb, hd0, hd⟩ := hkey
    cases pre with
    | nil => exact hpre rfl
    | cons p pre1 =>
      simp only [List.cons_append, List.append_assoc, List.cons.injEq] at heq
      obtain ⟨hpu, heq1⟩ := heq
      subst hpu
      have hlast1 : lastIsWord true pre1 = false := by
        have h := hlast
        simp only [lastIsWord] at h
        rwa [isWordChar_of_isUpper hu] at h
      have hpre1 : pre1 ≠ [] := by
        intro hnil
        rw [hnil] at hlast1
        simp [lastIsWord] at hlast1
      by_cases h2 : pre1.length ≤ b.length
      · have htake : pre1 = b.take pre1.length :=
          key_take_of_le (y := '-' :: (d ++ rest')) heq1 h2
        have hword : ∀ c ∈ pre1, isWordChar c = true := by
          intro c hc
          rw [htake] at hc
          exact isWordChar_of_isUpperDigit (hb c (List.take_subset _ _ hc))
        rw [lastIsWord_all_word true hword hpre1] at hlast1
        exact absurd hlast1 (by simp)
      · push_neg at h2
        have htake : b = pre1.take b.length :=
          key_take_of_le (x := pre1) (y := k ++ post) heq1.symm (Nat.le_of_lt h2)
        have hsplit : pre1 = b ++ pre1.drop b.length := by
          conv_lhs => rw [← List.take_append_drop b.length pre1, ← htake]
        have hpre2 : pre1.drop b.length ≠ [] := by
          intro hnil
          rw [List.drop_eq_nil_iff] at hnil
          omega
        have heq2 : '-' :: (d ++ rest') = pre1.drop b.length ++ (k ++ post) := by
          have h := heq1
          rw [hsplit, List.append_assoc] at h
          exact List.append_cancel_left h
        rcases hdd : pre1.drop b.length with _ | ⟨q, pre3⟩
        · exact hpre2 hdd
        · rw [hdd] at heq2 hsplit
          rw [List.cons_append] at heq2
          injection heq2 with hq heq3
          subst hq
          have hlast3 : lastIsWord false pre3 = false := by
            have h := hlast1
            rw [hsplit, lastIsWord_append] at h
            simp only [lastIsWord] at h
            rwa [show isWordChar '-' = false from by decide] at h
          by_cases h3 : d.length ≤ pre3.length
          · have hplen : (u :: pre1).length < (u :: b ++ '-' :: d).length := hlen
            rw [hsplit] at hplen
            simp only [List.length_cons, List.length_append] at hplen
            omega
          · push_neg at h3
            obtain ⟨u2, k1, rfl, hu2⟩ := shape_head_upper hk
            have hL : (d ++ rest').drop pre3.length = d.drop pre3.length ++ rest' := by
              rw [List.drop_append_eq_append_drop]
              have h0 : pre3.length - d.length = 0 := Nat.sub_eq_zero_of_le (Nat.le_of_lt h3)
              simp [h0]
            have hR : (pre3 ++ (u2 :: k1 ++ post)).drop pre3.length = u2 :: k1 ++ post := by
              rw [List.drop_append_eq_append_drop]
              simp
            have hdrop : d.drop pre3.length ++ rest' = u2 :: (k1 ++ post) := by
              rw [← hL, heq3, hR, List.cons_append]
            rcases hee : d.drop pre3.length with _ | ⟨x, xs⟩
            · rw [List.drop_eq_nil_iff] at hee
              omega
            · rw [hee, List.cons_append] at hdrop
              injection hdrop with hx hrest2
              have hxd : x ∈ d :=
                List.drop_subset _ _ (by rw [hee]; exact List.mem_cons_self _ _)
              have hdig := hd x hxd
              rw [hx, isDigit_false_of_isUpper hu2] at hdig
              exact absurd hdig (by simp)

/-! ## Scanner correctness: membership in `findall` is exactly boundary
occurrence of a `[A-Z][A-Z0-9]+-\x5cd+` match -/

theorem scanKeysF_mem_iff :
    ∀ (fuel : Nat) (l : List Char) (pw : Bool) (k : List Char), l.length ≤ fuel →
      (k ∈ scanKeysF fuel l pw ↔ OccursKeyFrom pw l k) := by
  intro fuel
  induction fuel with
  | zero =>
    intro l pw k hlen
    cases l with
    | nil =>
      simp only [scanKeysF, List.not_mem_nil, false_iff]
      exact occursKeyFrom_nil
    | cons c rest => simp at hlen
  | succ fuel ih =>
    intro l pw k hlen
    cases l with
    | nil =>
      simp only [scanKeysF, List.not_mem_nil, false_iff]
      exact occursKeyFrom_nil
    | cons c rest =>
      have hrlen : rest.length ≤ fuel := by
        simp only [List.length_cons] at hlen
        omega
      cases pw with
      | true =>
        have hunf : scanKeysF (fuel + 1) (c :: rest) true =
            scanKeysF fuel rest (isWordChar c) := by
          simp [scanKeysF]
        rw [hunf, ih rest (isWordChar c) k hrlen]
        constructor
        · exact occurs_tail
        · intro h
          rcases occurs_head h with ⟨hpw, -⟩ | h2
          · exact absurd hpw (by simp)
          · exact h2
      | false =>
        rcases hm : matchKey (c :: rest) with _ | ⟨key, rest2⟩
        · have hunf : scanKeysF (fuel + 1) (c :: rest) false =
              scanKeysF fuel rest (isWordChar c) := by
            simp [scanKeysF, hm]
          rw [hunf, ih rest (isWordChar c) k hrlen]
          constructor
          · exact occurs_tail
          · intro h
            rcases occurs_head h with ⟨-, post, hcr, hbd, hsh⟩ | h2
            · exfalso
              have hc := matchKey_complete hsh hbd
              rw [← hcr, hm] at hc
              exact absurd hc (by simp)
            · exact h2
        · obtain ⟨hdec, hsh, hbd⟩ := matchKey_eq_some hm
          have hkeyne : key ≠ [] := shape_ne_nil hsh
          have hlen2 : rest2.length ≤ fuel := by
            have h1 : (c :: rest).length = key.length + rest2.length := by
              rw [hdec, List.length_append]
            have h2 : 0 < key.length := List.length_pos.2 hkeyne
            simp only [List.length_cons] at h1
            omega
          have hunf : scanKeysF (fuel + 1) (c :: rest) false =
              key :: scanKeysF fuel rest2 true := by
            simp [scanKeysF, hm]
          rw [hunf, List.mem_cons, ih rest2 true k hlen2]
          constructor
          · rintro (rfl | h)
            · exact ⟨[], rest2, by simpa using hdec, rfl, hbd, hsh⟩
            · rw [hdec]
              exact occurs_after_key hsh h
          · intro h
            rw [hdec] at h
            obtain ⟨pre, post, heq, hlast, hbd2, hk2⟩ := h
            cases pre with
            | nil =>
              left
              have hc : matchKey (k ++ post) = some (k, post) :=
                matchKey_complete hk2 hbd2
              simp only [List.nil_append] at heq
              rw [← heq, ← hdec, hm] at hc
              simp only [Option.some.injEq, Prod.mk.injEq] at hc
              exact hc.1.symm
            | cons p pre1 =>
              right
              rw [List.append_assoc] at heq
              obtain ⟨pre2, hpe, hpre2⟩ :=
                occurs_split hsh heq (by simp) hlast hk2
              have hrest2 : rest2 = pre2 ++ (k ++ post) := by
                have h := heq
                rw [hpe, List.append_assoc] at h
                exact List.append_cancel_left h
              have hlast2 : lastIsWord true pre2 = false := by
                have h := hlast
                rw [hpe, lastIsWord_append, shape_lastIsWord hsh false] at h
                exact h
              exact ⟨pre2, post, by rw [hrest2, List.append_assoc], hlast2, hbd2, hk2⟩

theorem scanKeys_mem_iff (l : List Char) (pw : Bool) (k : List Char) :
    k ∈ scanKeys l pw ↔ OccursKeyFrom pw l k :=
  scanKeysF_mem_iff l.length l pw k le_rfl

theorem findIssueKeys_mem_iff (t s : String) :
    s ∈ findIssueKeys t ↔ OccursAsKey s.data t.data := by
  simp only [findIssueKeys, List.mem_map]
  constructor
  · rintro ⟨cs, hmem, rfl⟩
    exact (scanKeys_mem_iff t.data false cs).1 hmem
  · intro h
    exact ⟨s.data, (scanKeys_mem_iff t.data false s.data).2 h, rfl⟩

theorem if_empty_findIssueKeys (t : String) :
    (if t = "" then [] else findIssueKeys t) = findIssueKeys t := by
  split
  · next h => subst h; rfl
  · rfl

theorem extract_issue_keys_mem_iff (texts : List String) (s : String) :
    s ∈ extract_issue_keys texts ↔ ∃ t ∈ texts, OccursAsKey s.data t.data := by
  unfold extract_issue_keys
  rw [(List.perm_insertionSort _ _).mem_iff, List.mem_dedup]
  simp only [if_empty_findIssueKeys, List.mem_flatMap]
  constructor
  · rintro ⟨t, ht, hs⟩
    exact ⟨t, ht, (findIssueKeys_mem_iff t s).1 hs⟩
  · rintro ⟨t, ht, hocc⟩
    exact ⟨t, ht, (findIssueKeys_mem_iff t s).2 hocc⟩

theorem extract_issue_keys_sorted (texts : List String) :
    (extract_issue_keys texts).Sorted (· < ·) := by
  unfold extract_issue_keys
  apply List.Sorted.lt_of_le
  · exact List.sorted_insertionSort _ _
  · exact ((List.perm_insertionSort _ _).nodup_iff).2 (List.nodup_dedup _)

/-! ## Claim theorems -/

/-- C1: the claim states that, in the batch Component Ensurer, a processed
issue key whose project lacks the repository-name component gets that
component created and attached whenever the underlying create call would
succeed.  The code cannot do this: `jira_create_component` evaluates the
unbound module global `JIRA_COMPONENT_LEAD` (`jira_component_hook.py` line
116) before issuing the POST, so the call raises `NameError`; the per-key
handler logs `[WARN]` and neither creates nor attaches anything — here
shown against a client (`c1Client`) whose underlying create call succeeds. -/
theorem c1_create_if_absent_raises_nameError :
    c1Client.postComponent "AB" "myrepo" =
      .ok (.created ⟨"10", "myrepo"⟩) ∧
    jira_create_component c1Client "AB" "myrepo" =
      .error (.nameError "JIRA_COMPONENT_LEAD") ∧
    processIssueKey c1Client "myrepo" "AB-1" =
      .error (.nameError "JIRA_COMPONENT_LEAD") ∧
    hookMain c1Client "myrepo" ["AB-1"] = [HookLog.warnKey "AB-1"] :=
  ⟨rfl, rfl, rfl, rfl⟩

/-- C3: batch isolation — for every client (including clients that raise on
some keys) and every key list, each key receives exactly one log entry at
its position, `[OK]` when its processing succeeded and `[WARN]` when the
client raised for it, and the process exit code is 0. -/
theorem c3_batch_isolation (cl : BatchClient) (repoName : String)
    (issue_keys : List String) :
    hookExitCode cl repoName issue_keys = 0 ∧
    ∀ i (h : i < issue_keys.length),
      (hookMain cl repoName issue_keys)[i]? =
        some (match processIssueKey cl repoName (issue_keys.get ⟨i, h⟩) with
              | .ok _ => HookLog.okKey (issue_keys.get ⟨i, h⟩)
              | .error _ => HookLog.warnKey (issue_keys.get ⟨i, h⟩)) := by
  refine ⟨rfl, ?_⟩
  intro i h
  have hne : issue_keys ≠ [] := by
    intro hnil
    rw [hnil] at h
    simp at h
  unfold hookMain
  rw [if_neg hne, List.getElem?_map, List.getElem?_eq_getElem h]
  simp [List.get_eq_getElem]

/-- C3 witness: three keys, the client raises on the second; the first and
third are still processed and logged `[OK]`, the second is `[WARN]`, and
the exit code is 0. -/
theorem c3_batch_isolation_witness :
    hookExitCode c3Client "webhooks-test-repo" ["A-1", "B-2", "C-3"] = 0 ∧
    (hookMain c3Client "webhooks-test-repo" ["A-1", "B-2", "C-3"])[0]? =
      some (HookLog.okKey "A-1") ∧
    (hookMain c3Client "webhooks-test-repo" ["A-1", "B-2", "C-3"])[1]? =
      some (HookLog.warnKey "B-2") ∧
    (hookMain c3Client "webhooks-test-repo" ["A-1", "B-2", "C-3"])[2]? =
      some (HookLog.okKey "C-3") := by
  obtain ⟨h0, h⟩ :=
    c3_batch_isolation c3Client "webhooks-test-repo" ["A-1", "B-2", "C-3"]
  refine ⟨h0, ?_, ?_, ?_⟩
  · rw [h 0 (by decide)]
    rfl
  · rw [h 1 (by decide)]
    rfl
  · rw [h 2 (by decide)]
    rfl

/-- C9: the attach request body built by the batch script contains only
`add` operations against the components field, and applying it on the
server never removes a pre-existing component (and does add the new one). -/
theorem c9_additive_attach (component_id : String) (comps : List String) :
    (∀ op ∈ addComponentBody component_id, ∃ j, op = ComponentUpdateOp.add j) ∧
    (∀ c ∈ comps, c ∈ applyComponentOps comps (addComponentBody component_id)) ∧
    component_id ∈ applyComponentOps comps (addComponentBody component_id) := by
  refine ⟨?_, ?_, ?_⟩
  · intro op hop
    simp only [addComponentBody, List.mem_singleton] at hop
    exact ⟨component_id, hop⟩
  · intro c hc
    simp only [applyComponentOps, addComponentBody, List.foldl_cons, List.foldl_nil,
      applyComponentOp]
    split
    · exact hc
    · exact List.mem_append_left _ hc
  · simp only [applyComponentOps, addComponentBody, List.foldl_cons, List.foldl_nil,
      applyComponentOp]
    split
    · next hmem => exact hmem
    · simp

/-- C9 witness: attaching id `10` to an issue carrying `7` and `8` keeps
both and adds `10`. -/
theorem c9_additive_attach_witness :
    "7" ∈ applyComponentOps ["7", "8"] (addComponentBody "10") ∧
    "10" ∈ applyComponentOps ["7", "8"] (addComponentBody "10") := by
  obtain ⟨-, h2, h3⟩ := c9_additive_attach "10" ["7", "8"]
  exact ⟨h2 "7" (by decide), h3⟩

/-! ## Single-issue run facts -/

theorem si_main_unfold {env : SIEnv} {filt : String}
    (h1 : pyTruthy env.jira_base_url = true)
    (h2 : pyTruthy env.jira_user_email = true)
    (h3 : pyTruthy env.jira_api_token = true)
    (h4 : pyTruthy env.issue_key = true)
    (h5 : pyTruthy env.component_name = true)
    (hf : env.jira_project_filter = some filt)
    (hft : pyStrip filt.data ≠ [])
    (hal : parse_allowed_projects filt ≠ []) (w : SIWorld) (fail : Option SIFail) :
    si_main env w fail =
      si_try (env.component_name.getD "") (parse_allowed_projects filt) w fail := by
  unfold si_main
  rw [h1, h2, h3, h4, h5, hf]
  simp only [Bool.and_self, Bool.not_true, Bool.false_eq_true, if_false]
  rw [if_neg hft, if_neg hal]

/-- C4: when the issue's upper-cased project key is not in the non-empty
parsed allow-list, the single-issue run performs no create call and no
update call, writes `status=skipped` / `skip_reason=project_not_allowed`
to the CI output file, exits 0, and leaves the Jira world unchanged. -/
theorem c4_project_not_allowed (env : SIEnv) (w : SIWorld) (fail : Option SIFail)
    (filt : String)
    (h1 : pyTruthy env.jira_base_url = true)
    (h2 : pyTruthy env.jira_user_email = true)
    (h3 : pyTruthy env.jira_api_token = true)
    (h4 : pyTruthy env.issue_key = true)
    (h5 : pyTruthy env.component_name = true)
    (hf : env.jira_project_filter = some filt)
    (hft : pyStrip filt.data ≠ [])
    (hal : parse_allowed_projects filt ≠ [])
    (hnotin : String.mk (pyUpper w.projectKey.data) ∉ parse_allowed_projects filt)
    (hfc : fail ≠ some SIFail.connect) (hff : fail ≠ some SIFail.fetchIssue) :
    si_main env w fail =
      ⟨0, ["status=skipped", "skip_reason=project_not_allowed"], 0, [], w⟩ := by
  rw [si_main_unfold h1 h2 h3 h4 h5 hf hft hal]
  unfold si_try
  rw [if_neg hfc, if_neg hff, if_pos hnotin]

/-- C4 witness: issue in project `CA`, allow-list `DEV`; the run skips with
`project_not_allowed`, exit code 0, no create and no update call, and the
world (project components and issue components) is untouched. -/
theorem c4_project_not_allowed_witness :
    si_main ⟨some "https://x", some "e@x", some "tok", some "CA-1", some "web",
        some "DEV"⟩ ⟨"CA", [], [], 0⟩ none =
      ⟨0, ["status=skipped", "skip_reason=project_not_allowed"], 0, [],
        ⟨"CA", [], [], 0⟩⟩ :=
  c4_project_not_allowed _ _ _ "DEV" rfl rfl rfl rfl rfl rfl (by decide)
    (by decide) (by decide) (by decide) (by decide)

theorem si_attach_attached {cname : String} {pcs : List Component} {w : SIWorld}
    {ex : List String} {cc : Nat} {fail : Option SIFail} (h : cname ∈ ex) :
    si_attach cname pcs w ex cc fail = ⟨0, ["status=processed"], cc, [], w⟩ := by
  unfold si_attach
  rw [if_pos h]

theorem si_attach_not_attached {cname : String} {pcs : List Component}
    {w : SIWorld} {ex : List String} {cc : Nat} (h : cname ∉ ex) :
    si_attach cname pcs w ex cc none =
      ⟨0, ["status=processed"], cc, [ex ++ [cname]],
        { w with issueComponents := ex ++ [cname] }⟩ := by
  unfold si_attach
  rw [if_neg h]
  rcases hfind : pcs.find? (fun c => c.name = cname) with _ | c
  · rw [hfind]
    rw [if_neg (by simp)]
    unfold si_update
    rw [if_neg (by simp)]
  · rw [hfind]
    unfold si_update
    rw [if_neg (by simp)]

theorem si_try_create {cname : String} {allowed : List String} {w : SIWorld}
    (hin : String.mk (pyUpper w.projectKey.data) ∈ allowed)
    (habs : cname ∉ w.projectComponents.map Component.name) :
    si_try cname allowed w none =
      si_attach cname w.projectComponents
        { w with projectComponents := w.projectComponents ++ [⟨toString w.nextId, cname⟩],
                 nextId := w.nextId + 1 } w.issueComponents 1 none := by
  simp only [si_try]
  rw [if_neg (by simp), if_neg (by simp), if_neg (not_not_intro hin),
    if_neg (by simp), if_pos habs, if_neg (by simp)]

theorem si_try_no_create {cname : String} {allowed : List String} {w : SIWorld}
    (hin : String.mk (pyUpper w.projectKey.data) ∈ allowed)
    (hpres : cname ∈ w.projectComponents.map Component.name) :
    si_try cname allowed w none =
      si_attach cname w.projectComponents w w.issueComponents 0 none := by
  simp only [si_try]
  rw [if_neg (by simp), if_neg (by simp), if_neg (not_not_intro hin),
    if_neg (by simp), if_neg (not_not_intro hpres)]

/-- C8: full-replace attach — under a valid configuration with the issue's
project allowed and no injected failure, if the target name is not yet
attached, the single `issue.update` call replaces the components field with
exactly the prior components plus the new name (every prior component kept,
the new name added, no duplicates introduced when the prior list had none);
if the target name is already attached, no update call is performed. -/
theorem c8_full_replace_attach (env : SIEnv) (w : SIWorld) (filt cname : String)
    (h1 : pyTruthy env.jira_base_url = true)
    (h2 : pyTruthy env.jira_user_email = true)
    (h3 : pyTruthy env.jira_api_token = true)
    (h4 : pyTruthy env.issue_key = true)
    (h5 : pyTruthy env.component_name = true)
    (hf : env.jira_project_filter = some filt)
    (hft : pyStrip filt.data ≠ [])
    (hal : parse_allowed_projects filt ≠ [])
    (hcn : env.component_name = some cname)
    (hin : String.mk (pyUpper w.projectKey.data) ∈ parse_allowed_projects filt) :
    (cname ∉ w.issueComponents →
      (si_main env w none).updateCalls = [w.issueComponents ++ [cname]] ∧
      (si_main env w none).world.issueComponents = w.issueComponents ++ [cname] ∧
      (∀ x, x ∈ (si_main env w none).world.issueComponents ↔
        x ∈ w.issueComponents ∨ x = cname) ∧
      (w.issueComponents.Nodup → (si_main env w none).world.issueComponents.Nodup)) ∧
    (cname ∈ w.issueComponents → (si_main env w none).updateCalls = []) := by
  have hget : env.component_name.getD "" = cname := by rw [hcn]; rfl
  have hrun := si_main_unfold h1 h2 h3 h4 h5 hf hft hal w none
  rw [hget] at hrun
  constructor
  · intro hna
    have hgoal : (si_main env w none).updateCalls = [w.issueComponents ++ [cname]] ∧
        (si_main env w none).world.issueComponents = w.issueComponents ++ [cname] := by
      by_cases hpres : cname ∈ w.projectComponents.map Component.name
      · rw [hrun, si_try_no_create hin hpres, si_attach_not_attached hna]
        exact ⟨rfl, rfl⟩
      · rw [hrun, si_try_create hin hpres, si_attach_not_attached hna]
        exact ⟨rfl, rfl⟩
    refine ⟨hgoal.1, hgoal.2, ?_, ?_⟩
    · intro x
      rw [hgoal.2]
      simp
    · intro hnd
      rw [hgoal.2, List.nodup_append]
      exact ⟨hnd, List.nodup_singleton _, by simpa using hna⟩
  · intro hat
    by_cases hpres : cname ∈ w.projectComponents.map Component.name
    · rw [hrun, si_try_no_create hin hpres, si_attach_attached hat]
    · rw [hrun, si_try_create hin hpres, si_attach_attached hat]

/-- C8 witness: issue in allowed project `CA` carrying component `old`;
attaching `web` issues exactly one full-replace update with payload
`["old", "web"]` — the prior component is kept and the new one added. -/
theorem c8_full_replace_attach_witness :
    (si_main ⟨some "https://x", some "e@x", some "tok", some "CA-1", some "web",
        some "CA"⟩ ⟨"CA", [⟨"9", "web"⟩], ["old"], 5⟩ none).updateCalls =
      [["old", "web"]] := by
  have h := c8_full_replace_attach ⟨some "https://x", some "e@x", some "tok",
    some "CA-1", some "web", some "CA"⟩ ⟨"CA", [⟨"9", "web"⟩], ["old"], 5⟩
    "CA" "web" rfl rfl rfl rfl rfl rfl (by decide) (by decide) rfl (by decide)
  exact (h.1 (by decide)).1

theorem si_try_second_run {cname : String} {allowed : List String}
    {w1 : SIWorld}
    (hin : String.mk (pyUpper w1.projectKey.data) ∈ allowed)
    (hpres : cname ∈ w1.projectComponents.map Component.name)
    (hat : cname ∈ w1.issueComponents) :
    si_try cname allowed w1 none = ⟨0, ["status=processed"], 0, [], w1⟩ := by
  rw [si_try_no_create hin hpres, si_attach_attached hat]

/-- C5: idempotence — after a successful first run under a valid
configuration with the project allowed and no failures, a second run exits
0, writes only the success marker, issues no create call and no update
call, and leaves the world (in particular the attached-component set)
exactly as the first run left it. -/
theorem c5_idempotent (env : SIEnv) (w : SIWorld) (filt cname : String)
    (h1 : pyTruthy env.jira_base_url = true)
    (h2 : pyTruthy env.jira_user_email = true)
    (h3 : pyTruthy env.jira_api_token = true)
    (h4 : pyTruthy env.issue_key = true)
    (h5 : pyTruthy env.component_name = true)
    (hf : env.jira_project_filter = some filt)
    (hft : pyStrip filt.data ≠ [])
    (hal : parse_allowed_projects filt ≠ [])
    (hcn : env.component_name = some cname)
    (hin : String.mk (pyUpper w.projectKey.data) ∈ parse_allowed_projects filt) :
    si_main env (si_main env w none).world none =
      ⟨0, ["status=processed"], 0, [], (si_main env w none).world⟩ := by
  have hget : env.component_name.getD "" = cname := by rw [hcn]; rfl
  have hrun1 := si_main_unfold h1 h2 h3 h4 h5 hf hft hal w none
  rw [hget] at hrun1
  have hstep : ∀ w1 : SIWorld, si_main env w1 none = si_try cname
      (parse_allowed_projects filt) w1 none := by
    intro w1
    have h := si_main_unfold h1 h2 h3 h4 h5 hf hft hal w1 none
    rwa [hget] at h
  by_cases hpres : cname ∈ w.projectComponents.map Component.name
  · by_cases hat : cname ∈ w.issueComponents
    · rw [hrun1, si_try_no_create hin hpres, si_attach_attached hat]
      dsimp only
      rw [hstep w]
      exact si_try_second_run hin hpres hat
    · rw [hrun1, si_try_no_create hin hpres, si_attach_not_attached hat]
      dsimp only
      rw [hstep _]
      exact si_try_second_run (by simpa using hin) (by simpa using hpres) (by simp)
  · by_cases hat : cname ∈ w.issueComponents
    · rw [hrun1, si_try_create hin hpres, si_attach_attached hat]
      dsimp only
      rw [hstep _]
      exact si_try_second_run (by simpa using hin) (by simp) (by simpa using hat)
    · rw [hrun1, si_try_create hin hpres, si_attach_not_attached hat]
      dsimp only
      rw [hstep _]
      exact si_try_second_run (by simpa using hin) (by simp) (by simp)

theorem si_update_exit (cname : String) (w : SIWorld) (ex : List String)
    (cc : Nat) (fail : Option SIFail) :
    ((si_update cname w ex cc fail).exitCode = 1 ∧
      (si_update cname w ex cc fail).output = []) ∨
      (si_update cname w ex cc fail).exitCode = 0 := by
  unfold si_update
  split
  · exact Or.inl ⟨rfl, rfl⟩
  · exact Or.inr rfl

theorem si_attach_exit (cname : String) (pcs : List Component) (w : SIWorld)
    (ex : List String) (cc : Nat) (fail : Option SIFail) :
    ((si_attach cname pcs w ex cc fail).exitCode = 1 ∧
      (si_attach cname pcs w ex cc fail).output = []) ∨
      (si_attach cname pcs w ex cc fail).exitCode = 0 := by
  unfold si_attach
  split
  · exact Or.inr rfl
  · split
    · exact si_update_exit _ _ _ _ _
    · split
      · exact Or.inl ⟨rfl, rfl⟩
      · exact si_update_exit _ _ _ _ _

theorem si_try_exit (cname : String) (allowed : List String) (w : SIWorld)
    (fail : Option SIFail) :
    ((si_try cname allowed w fail).exitCode = 1 ∧
      (si_try cname allowed w fail).output = []) ∨
      (si_try cname allowed w fail).exitCode = 0 := by
  unfold si_try
  dsimp only
  repeat' split
  all_goals first
    | exact Or.inl ⟨rfl, rfl⟩
    | exact Or.inr rfl
    | exact si_attach_exit _ _ _ _ _ _

theorem si_main_exit (env : SIEnv) (w : SIWorld) (fail : Option SIFail) :
    ((si_main env w fail).exitCode = 1 ∧ (si_main env w fail).output = []) ∨
      (si_main env w fail).exitCode = 0 := by
  unfold si_main
  dsimp only
  repeat' split
  all_goals first
    | exact Or.inl ⟨rfl, rfl⟩
    | exact Or.inr rfl
    | exact si_try_exit _ _ _ _

/-- C10: fatal error path — (i) whenever the single-issue run exits with
code 1, nothing at all was appended to the CI output file (no `status=` or
`skip_reason=` line), and (ii) under a valid allowed configuration with the
target component absent from both the project and the issue, every one of
the script's Jira operations, when it raises, makes the run exit 1 with
nothing written. -/
theorem c10_fatal_path_writes_nothing :
    (∀ (env : SIEnv) (w : SIWorld) (fail : Option SIFail),
      (si_main env w fail).exitCode = 1 → (si_main env w fail).output = []) ∧
    (∀ (env : SIEnv) (w : SIWorld) (filt cname : String),
      pyTruthy env.jira_base_url = true → pyTruthy env.jira_user_email = true →
      pyTruthy env.jira_api_token = true → pyTruthy env.issue_key = true →
      pyTruthy env.component_name = true →
      env.jira_project_filter = some filt → pyStrip filt.data ≠ [] →
      parse_allowed_projects filt ≠ [] → env.component_name = some cname →
      String.mk (pyUpper w.projectKey.data) ∈ parse_allowed_projects filt →
      cname ∉ w.projectComponents.map Component.name →
      cname ∉ w.issueComponents →
      ∀ f : SIFail, (si_main env w (some f)).exitCode = 1 ∧
        (si_main env w (some f)).output = []) := by
  constructor
  · intro env w fail h1
    rcases si_main_exit env w fail with ⟨-, ho⟩ | hz
    · exact ho
    · rw [h1] at hz
      exact absurd hz (by simp)
  · intro env w filt cname h1 h2 h3 h4 h5 hf hft hal hcn hin habs hna f
    have hget : env.component_name.getD "" = cname := by rw [hcn]; rfl
    have hrun : ∀ fl, si_main env w fl =
        si_try cname (parse_allowed_projects filt) w fl := by
      intro fl
      have h := si_main_unfold h1 h2 h3 h4 h5 hf hft hal w fl
      rwa [hget] at h
    have hfind : w.projectComponents.find? (fun c => c.name = cname) = none := by
      rw [List.find?_eq_none]
      intro x hx
      simp only [decide_eq_true_eq]
      intro hxe
      exact habs (List.mem_map.2 ⟨x, hx, hxe⟩)
    cases f with
    | connect =>
      have he : si_main env w (some SIFail.connect) = ⟨1, [], 0, [], w⟩ := by
        rw [hrun]
        unfold si_try
        rw [if_pos rfl]
      exact ⟨by rw [he], by rw [he]⟩
    | fetchIssue =>
      have he : si_main env w (some SIFail.fetchIssue) = ⟨1, [], 0, [], w⟩ := by
        rw [hrun]
        unfold si_try
        rw [if_neg (by simp), if_pos rfl]
      exact ⟨by rw [he], by rw [he]⟩
    | listComponents =>
      have he : si_main env w (some SIFail.listComponents) = ⟨1, [], 0, [], w⟩ := by
        rw [hrun]
        unfold si_try
        rw [if_neg (by simp), if_neg (by simp), if_neg (not_not_intro hin),
          if_pos rfl]
      exact ⟨by rw [he], by rw [he]⟩
    | createComponent =>
      have he : si_main env w (some SIFail.createComponent) = ⟨1, [], 1, [], w⟩ := by
        rw [hrun]
        unfold si_try
        dsimp only
        rw [if_neg (by simp), if_neg (by simp), if_neg (not_not_intro hin),
          if_neg (by simp), if_pos habs, if_pos (Or.inl rfl)]
      exact ⟨by rw [he], by rw [he]⟩
    | createConflict =>
      have he : si_main env w (some SIFail.createConflict) = ⟨1, [], 1, [], w⟩ := by
        rw [hrun]
        unfold si_try
        dsimp only
        rw [if_neg (by simp), if_neg (by simp), if_neg (not_not_intro hin),
          if_neg (by simp), if_pos habs, if_pos (Or.inr rfl)]
      exact ⟨by rw [he], by rw [he]⟩
    | listComponentsAgain =>
      have he : si_main env w (some SIFail.listComponentsAgain) =
          ⟨1, [], 1, [], ⟨w.projectKey,
            w.projectComponents ++ [⟨toString w.nextId, cname⟩],
            w.issueComponents, w.nextId + 1⟩⟩ := by
        rw [hrun]
        unfold si_try
        dsimp only
        rw [if_neg (by simp), if_neg (by simp), if_neg (not_not_intro hin),
          if_neg (by simp), if_pos habs, if_neg (by simp)]
        unfold si_attach
        rw [if_neg hna, hfind]
        dsimp only
        rw [if_pos rfl]
      exact ⟨by rw [he], by rw [he]⟩
    | updateIssue =>
      have he : si_main env w (some SIFail.updateIssue) =
          ⟨1, [], 1, [w.issueComponents ++ [cname]], ⟨w.projectKey,
            w.projectComponents ++ [⟨toString w.nextId, cname⟩],
            w.issueComponents, w.nextId + 1⟩⟩ := by
        rw [hrun]
        unfold si_try
        dsimp only
        rw [if_neg (by simp), if_neg (by simp), if_neg (not_not_intro hin),
          if_neg (by simp), if_pos habs, if_neg (by simp)]
        unfold si_attach
        rw [if_neg hna, hfind]
        dsimp only
        rw [if_neg (by simp)]
        unfold si_update
        rw [if_pos rfl]
      exact ⟨by rw [he], by rw [he]⟩

/-- C10 witness: concrete valid configuration; the issue-update call raises
and the run exits 1 with an empty CI output. -/
theorem c10_fatal_path_writes_nothing_witness :
    (si_main ⟨some "https://x", some "e@x", some "tok", some "CA-1", some "web",
        some "CA"⟩ ⟨"CA", [⟨"9", "other"⟩], ["old"], 5⟩
      (some SIFail.updateIssue)).exitCode = 1 ∧
    (si_main ⟨some "https://x", some "e@x", some "tok", some "CA-1", some "web",
        some "CA"⟩ ⟨"CA", [⟨"9", "other"⟩], ["old"], 5⟩
      (some SIFail.updateIssue)).output = [] :=
  c10_fatal_path_writes_nothing.2
    ⟨some "https://x", some "e@x", some "tok", some "CA-1", some "web", some "CA"⟩
    ⟨"CA", [⟨"9", "other"⟩], ["old"], 5⟩ "CA" "web" rfl rfl rfl rfl rfl rfl
    (by decide) (by decide) rfl (by decide) (by decide) (by decide)
    SIFail.updateIssue

/-- C2 counterexample: valid configuration, allowed project, component
absent from the project's list, and the create call answered with a
duplicate-component conflict.  The claim says the ensurer re-fetches and
treats this as success with no failure exit; in fact the run exits with
code 1 (and writes no status marker), because the single-issue script has
no conflict handler — the exception lands in the generic handler. -/
theorem c2_conflict_counterexample :
    (si_main ⟨some "https://x", some "e@x", some "tok", some "CA-1", some "web",
        some "CA"⟩ ⟨"CA", [⟨"9", "other"⟩], [], 5⟩
      (some SIFail.createConflict)).exitCode = 1 ∧
    (si_main ⟨some "https://x", some "e@x", some "tok", some "CA-1", some "web",
        some "CA"⟩ ⟨"CA", [⟨"9", "other"⟩], [], 5⟩
      (some SIFail.createConflict)).output = [] := by
  constructor <;> rfl

/-- C2 (amended): when creating the target component yields a conflict
response, the single-issue ensurer does not recover: the exception
propagates to the generic handler and the run exits with code 1, writing
no status marker and performing no update (conflict recovery by re-listing
exists only in the batch script's `jira_create_component`). -/
theorem c2_conflict_exits_one (env : SIEnv) (w : SIWorld) (filt cname : String)
    (h1 : pyTruthy env.jira_base_url = true)
    (h2 : pyTruthy env.jira_user_email = true)
    (h3 : pyTruthy env.jira_api_token = true)
    (h4 : pyTruthy env.issue_key = true)
    (h5 : pyTruthy env.component_name = true)
    (hf : env.jira_project_filter = some filt)
    (hft : pyStrip filt.data ≠ [])
    (hal : parse_allowed_projects filt ≠ [])
    (hcn : env.component_name = some cname)
    (hin : String.mk (pyUpper w.projectKey.data) ∈ parse_allowed_projects filt)
    (habs : cname ∉ w.projectComponents.map Component.name) :
    si_main env w (some SIFail.createConflict) = ⟨1, [], 1, [], w⟩ := by
  have hget : env.component_name.getD "" = cname := by rw [hcn]; rfl
  have hrun := si_main_unfold h1 h2 h3 h4 h5 hf hft hal w
    (some SIFail.createConflict)
  rw [hget] at hrun
  rw [hrun]
  unfold si_try
  dsimp only
  rw [if_neg (by simp), if_neg (by simp), if_neg (not_not_intro hin),
    if_neg (by simp), if_pos habs, if_pos (Or.inr rfl)]

/-- C2 witness: the amended statement at the counterexample's input. -/
theorem c2_conflict_exits_one_witness :
    si_main ⟨some "https://x", some "e@x", some "tok", some "CA-1", some "web",
        some "CA"⟩ ⟨"CA", [⟨"9", "other"⟩], [], 5⟩
      (some SIFail.createConflict) =
      ⟨1, [], 1, [], ⟨"CA", [⟨"9", "other"⟩], [], 5⟩⟩ :=
  c2_conflict_exits_one
    ⟨some "https://x", some "e@x", some "tok", some "CA-1", some "web", some "CA"⟩
    ⟨"CA", [⟨"9", "other"⟩], [], 5⟩ "CA" "web" rfl rfl rfl rfl rfl rfl
    (by decide) (by decide) rfl (by decide) (by decide)

/-- C7: allow-list parsing — the source's comprehension equals the spec's
split-trim-drop-blanks-upper-case pipeline on every input; `"ca, Dev ,"`
parses to exactly `CA, DEV`; and a configured but unparsable allow-list
(zero valid keys) makes any run a successful skip with
`skip_reason=invalid_project_filter`, exit code 0, no calls, no mutation. -/
theorem c7_allow_list_parsing :
    parse_allowed_projects "ca, Dev ," = ["CA", "DEV"] ∧
    (∀ s : String, parse_allowed_projects s = parse_allowed_projects_spec s) ∧
    (∀ (env : SIEnv) (w : SIWorld) (fail : Option SIFail) (filt : String),
      pyTruthy env.jira_base_url = true → pyTruthy env.jira_user_email = true →
      pyTruthy env.jira_api_token = true → pyTruthy env.issue_key = true →
      pyTruthy env.component_name = true →
      env.jira_project_filter = some filt → pyStrip filt.data ≠ [] →
      parse_allowed_projects filt = [] →
      si_main env w fail =
        ⟨0, ["status=skipped", "skip_reason=invalid_project_filter"], 0, [], w⟩) := by
  refine ⟨by decide, ?_, ?_⟩
  · intro s
    unfold parse_allowed_projects parse_allowed_projects_spec
    generalize pySplit ',' s.data = l
    induction l with
    | nil => rfl
    | cons p l ih =>
      simp only [List.filterMap_cons, List.map_cons, List.filter_cons]
      by_cases h : pyStrip p = []
      · simp [h, ih]
      · simp [h, ih]
  · intro env w fail filt h1 h2 h3 h4 h5 hf hft hal
    unfold si_main
    rw [h1, h2, h3, h4, h5, hf]
    simp only [Bool.and_self, Bool.not_true, Bool.false_eq_true, if_false]
    rw [if_neg hft, if_pos hal]

/-- C7 witness: a filter consisting only of separators and blanks parses to
zero keys and the run is a successful `invalid_project_filter` skip. -/
theorem c7_allow_list_parsing_witness :
    si_main ⟨some "https://x", some "e@x", some "tok", some "CA-1", some "web",
        some " ,, "⟩ ⟨"CA", [], [], 0⟩ none =
      ⟨0, ["status=skipped", "skip_reason=invalid_project_filter"], 0, [],
        ⟨"CA", [], [], 0⟩⟩ :=
  c7_allow_list_parsing.2.2
    ⟨some "https://x", some "e@x", some "tok", some "CA-1", some "web", some " ,, "⟩
    ⟨"CA", [], [], 0⟩ none " ,, " rfl rfl rfl rfl rfl rfl (by decide) (by decide)

/-- C5 witness: a concrete successful first run (component created and
attached), after which the second run is a pure no-op success. -/
theorem c5_idempotent_witness :
    si_main ⟨some "https://x", some "e@x", some "tok", some "CA-1", some "web",
        some "CA"⟩ (si_main ⟨some "https://x", some "e@x", some "tok",
        some "CA-1", some "web", some "CA"⟩ ⟨"CA", [], [], 0⟩ none).world none =
      ⟨0, ["status=processed"], 0, [],
        (si_main ⟨some "https://x", some "e@x", some "tok", some "CA-1",
          some "web", some "CA"⟩ ⟨"CA", [], [], 0⟩ none).world⟩ :=
  c5_idempotent
    ⟨some "https://x", some "e@x", some "tok", some "CA-1", some "web", some "CA"⟩
    ⟨"CA", [], [], 0⟩ "CA" "web" rfl rfl rfl rfl rfl rfl (by decide) (by decide)
    rfl (by decide)

/-- C6: the Issue-Key Harvester returns, for every collection of input
texts, a strictly sorted (hence deduplicated, lexicographically ordered)
list whose members are exactly the strings occurring in some text as a
match of the issue-key regex `\x5cb([A-Z][A-Z0-9]+-\x5cd+)\x5cb`; in
particular `"Fixes ABC-123 and refs xy-9"` yields exactly `["ABC-123"]`
(lower-case project keys are not matched). -/
theorem c6_harvester_regex_extraction (texts : List String) :
    (extract_issue_keys texts).Sorted (· < ·) ∧
    (∀ s : String, s ∈ extract_issue_keys texts ↔
      ∃ t ∈ texts, OccursAsKey s.data t.data) ∧
    extract_issue_keys ["Fixes ABC-123 and refs xy-9"] = ["ABC-123"] :=
  ⟨extract_issue_keys_sorted texts,
   fun s => extract_issue_keys_mem_iff texts s,
   by decide⟩
